import Mathlib

/-!
# The pairing interface of PBC (`include/pairing.h`)

A shallow embedding of the inline functions of `pairing.h` and of the data
they read, followed by the properties of the interface.

Conventions of the embedding.

* A C `int` is an `Int` in the range `INT_MIN .. INT_MAX` (32 bits, two's
  complement); `int_add` and `int_div` are the C operators, with the result
  reduced to 32 bits, so that an overflow shows as a difference with the exact
  value.
* A pointer to a read-only object is the value of the object: `field_ptr` and
  the embedded `field_t Zr` are both a `field_s`.
* A function pointer is the address of some code (`fn_ptr`); the functions that
  the addresses designate are the family implementations, which are not part
  of the header: they are the table `code_s`, a parameter of every function
  that calls through a pointer.
* A function `void f(element_t out, ...)` that sets `out` is the function that
  returns the new value of `out`.
* A function that only reads through a pointer parameter takes the value of
  the pointee and does not return it: the pointee after the call is the pointee
  before the call.
-/

namespace PBC

/-! ## C integers -/

/-- Smallest value of a 32-bit C `int`. -/
def INT_MIN : Int := -2147483648

/-- Largest value of a 32-bit C `int`. -/
def INT_MAX : Int := 2147483647

/-- The integers a C `int` can hold. -/
def is_int (x : Int) : Prop := INT_MIN ≤ x ∧ x ≤ INT_MAX

instance is_int_decidable (x : Int) : Decidable (is_int x) := by
  unfold is_int
  exact inferInstance

/-- Reduction of an exact integer to the 32-bit two's complement value. -/
def wrap_int (x : Int) : Int := (x + 2147483648) % 4294967296 - 2147483648

/-- C `a / b` on `int`: the quotient truncated toward zero. -/
def int_div (a b : Int) : Int := wrap_int (Int.tdiv a b)

/-- C `a + b` on `int`. -/
def int_add (a b : Int) : Int := wrap_int (a + b)

/-! ## Data model -/

/-- A C function pointer: the address of the code it designates. -/
structure fn_ptr where
  addr : Nat
deriving DecidableEq

/-- Modelled from the spec: `struct field_s` (the Structure of the spec) is
declared in a header that is not among the sources. The header `pairing.h`
reads its member `fixed_length_in_bytes`, a C `int`; every other member
(order, bound operations, private data) is the parameter `rest`. -/
structure field_s (F : Type) where
  fixed_length_in_bytes : Int
  rest : F

/-- Modelled from the spec: `struct element_s` (the Element of the spec) is
declared in a header that is not among the sources: "a value belonging to
exactly one Structure". `field` is the Structure the element is bound to,
`data` the value, whose representation `D` depends on the Structure. -/
structure element_s (F D : Type) where
  field : field_s F
  data : D

/-- The `struct pairing_s` of `pairing.h`, member by member. `r` is the
`mpz_t` order of G1, G2 and GT; `data` is the family's `void *`. -/
structure pairing_s (F X : Type) where
  r : Nat
  Zr : field_s F
  G1 : field_s F
  G2 : field_s F
  GT : field_s F
  phi : fn_ptr
  map : fn_ptr
  is_almost_coddh : fn_ptr
  clear_func : fn_ptr
  data : X

/-- The code that the function pointers of a pairing designate: for each
address, the function found there, with the C signature of the member it is
bound to. `A1`, `A2`, `AT` are the representations of the elements of G1, G2
and GT. -/
structure code_s (F X A1 A2 AT : Type) where
  map : fn_ptr → element_s F AT → element_s F A1 → element_s F A2 →
    pairing_s F X → element_s F AT
  is_almost_coddh : fn_ptr → element_s F A1 → element_s F A1 →
    element_s F A2 → element_s F A2 → pairing_s F X → Int

/-! ## The inline functions of `pairing.h` -/

section functions

variable {F X A1 A2 AT D : Type}

/-- The function `bilinear_map`: `pairing->map(out, in1, in2, pairing)`. -/
def bilinear_map (code : code_s F X A1 A2 AT) (out : element_s F AT)
    (in1 : element_s F A1) (in2 : element_s F A2) (pairing : pairing_s F X) :
    element_s F AT :=
  code.map pairing.map out in1 in2 pairing

/-- The function `pairing_apply`: `pairing->map(out, in1, in2, pairing)`. -/
def pairing_apply (code : code_s F X A1 A2 AT) (out : element_s F AT)
    (in1 : element_s F A1) (in2 : element_s F A2) (pairing : pairing_s F X) :
    element_s F AT :=
  code.map pairing.map out in1 in2 pairing

/-- The function `pairing_length_in_bytes_G1`: `pairing->G1->fixed_length_in_bytes`. -/
def pairing_length_in_bytes_G1 (pairing : pairing_s F X) : Int :=
  pairing.G1.fixed_length_in_bytes

/-- The function `pairing_length_in_bytes_x_only_G1`:
`pairing->G1->fixed_length_in_bytes / 2`. -/
def pairing_length_in_bytes_x_only_G1 (pairing : pairing_s F X) : Int :=
  int_div pairing.G1.fixed_length_in_bytes 2

/-- The function `pairing_length_in_bytes_compressed_G1`:
`pairing->G1->fixed_length_in_bytes / 2 + 1`. -/
def pairing_length_in_bytes_compressed_G1 (pairing : pairing_s F X) : Int :=
  int_add (int_div pairing.G1.fixed_length_in_bytes 2) 1

/-- The function `pairing_length_in_bytes_G2`: `pairing->G2->fixed_length_in_bytes`. -/
def pairing_length_in_bytes_G2 (pairing : pairing_s F X) : Int :=
  pairing.G2.fixed_length_in_bytes

/-- The function `pairing_length_in_bytes_compressed_G2`:
`pairing->G2->fixed_length_in_bytes / 2 + 1`. -/
def pairing_length_in_bytes_compressed_G2 (pairing : pairing_s F X) : Int :=
  int_add (int_div pairing.G2.fixed_length_in_bytes 2) 1

/-- The function `pairing_length_in_bytes_x_only_G2`:
`pairing->G2->fixed_length_in_bytes / 2`. -/
def pairing_length_in_bytes_x_only_G2 (pairing : pairing_s F X) : Int :=
  int_div pairing.G2.fixed_length_in_bytes 2

/-- The function `pairing_length_in_bytes_GT`: `pairing->GT->fixed_length_in_bytes`. -/
def pairing_length_in_bytes_GT (pairing : pairing_s F X) : Int :=
  pairing.GT.fixed_length_in_bytes

/-- The function `pairing_length_in_bytes_Zr`: `pairing->Zr->fixed_length_in_bytes`. -/
def pairing_length_in_bytes_Zr (pairing : pairing_s F X) : Int :=
  pairing.Zr.fixed_length_in_bytes

/-- The function `is_almost_coddh`: `pairing->is_almost_coddh(a, b, c, d, pairing)`. -/
def is_almost_coddh (code : code_s F X A1 A2 AT) (a b : element_s F A1)
    (c d : element_s F A2) (pairing : pairing_s F X) : Int :=
  code.is_almost_coddh pairing.is_almost_coddh a b c d pairing

/-- Modelled from the spec: `element_init` is defined in a header that is not
among the sources. An Element is "created bound to a Structure": the element
is bound to `f`; the spec fixes no initial value, so the value is left as it
was, that is, arbitrary. -/
def element_init (e : element_s F D) (f : field_s F) : element_s F D :=
  { e with field := f }

/-- The function `element_init_G1`: `element_init(e, pairing->G1)`. -/
def element_init_G1 (e : element_s F D) (pairing : pairing_s F X) :
    element_s F D :=
  element_init e pairing.G1

/-- The function `element_init_G2`: `element_init(e, pairing->G2)`. -/
def element_init_G2 (e : element_s F D) (pairing : pairing_s F X) :
    element_s F D :=
  element_init e pairing.G2

/-- The function `element_init_GT`: `element_init(e, pairing->GT)`. -/
def element_init_GT (e : element_s F D) (pairing : pairing_s F X) :
    element_s F D :=
  element_init e pairing.GT

/-- The function `element_init_Zr`: `element_init(e, pairing->Zr)`. -/
def element_init_Zr (e : element_s F D) (pairing : pairing_s F X) :
    element_s F D :=
  element_init e pairing.Zr

end functions

/-! ## Element arithmetic and the generic co-CDH predicate -/

section algebra

variable {F X A1 A2 AT A : Type}

/-- Modelled from the spec: the element arithmetic is defined in a header
that is not among the sources. The scalar multiple `x·P` of an element of an
additive Structure, computed in the Structure of `P`: the result is bound to
the same Structure. -/
def element_scalar_mul [AddGroup A] (x : Int) (P : element_s F A) :
    element_s F A :=
  { P with data := x • P.data }

/-- Modelled from the spec: the element arithmetic is defined in a header
that is not among the sources. The operation `neg` of a Structure: `-P`,
bound to the Structure of `P`. -/
def element_neg [AddGroup A] (P : element_s F A) : element_s F A :=
  { P with data := -P.data }

/-- Modelled from the spec: `generic_is_almost_coddh` is declared in
`pairing.h` and defined in a file that is not among the sources. Section 4.5:
"compute `map(a, d)` and `map(b, c)` and compare for equality or for equality
after inverting one side". The two values are computed into the locals `t0`
and `t1`, initialised in GT; their content before that is arbitrary. -/
def generic_is_almost_coddh [Group AT] [DecidableEq AT]
    (code : code_s F X A1 A2 AT) (t0 t1 : element_s F AT)
    (a b : element_s F A1) (c d : element_s F A2) (pairing : pairing_s F X) :
    Int :=
  let t0 := bilinear_map code (element_init t0 pairing.GT) a d pairing
  let t1 := bilinear_map code (element_init t1 pairing.GT) b c pairing
  if t0.data = t1.data then 1
  else if t0.data = (t1.data)⁻¹ then 1
  else 0

/-- Modelled from the spec: the family implementations of `map` are not among
the sources. Section 3: "`map` is bilinear: for all a,b in Zr and P∈G1, Q∈G2,
`map(aP, bQ) = map(P,Q)^(ab)`", for the map bound to the pairing, on elements
bound to G1, G2 and (for the output) GT, and scalars `0 ≤ a, b < r`. -/
def map_bilinear [AddGroup A1] [AddGroup A2] [Group AT]
    (code : code_s F X A1 A2 AT) (pairing : pairing_s F X) : Prop :=
  ∀ (out out2 : element_s F AT) (P : element_s F A1) (Q : element_s F A2)
    (a b : Int),
    out.field = pairing.GT → out2.field = pairing.GT →
    P.field = pairing.G1 → Q.field = pairing.G2 →
    0 ≤ a → a < pairing.r → 0 ≤ b → b < pairing.r →
    (code.map pairing.map out (element_scalar_mul a P)
        (element_scalar_mul b Q) pairing).data
      = (code.map pairing.map out2 P Q pairing).data ^ (a * b)

/-- Modelled from the spec: the pairing initializer is not among the sources.
Section 3, invariant of a Pairing: "`|G1| = |G2| = |GT subgroup| = r`; `map`
is bilinear". -/
def pairing_invariant [AddGroup A1] [AddGroup A2] [Group AT]
    [Fintype A1] [Fintype A2] [Fintype AT]
    (code : code_s F X A1 A2 AT) (pairing : pairing_s F X) : Prop :=
  Fintype.card A1 = pairing.r ∧ Fintype.card A2 = pairing.r ∧
    Fintype.card AT = pairing.r ∧ map_bilinear code pairing

/-- Modelled from the spec: the family implementations of `map` are not among
the sources. Section 8, non-degeneracy: "`map(P, Q)` is the GT identity iff
`P` or `Q` is its own structure's identity". -/
def map_non_degenerate [AddGroup A1] [AddGroup A2] [Group AT]
    (code : code_s F X A1 A2 AT) (pairing : pairing_s F X) : Prop :=
  ∀ (out : element_s F AT) (P : element_s F A1) (Q : element_s F A2),
    out.field = pairing.GT → P.field = pairing.G1 → Q.field = pairing.G2 →
    ((code.map pairing.map out P Q pairing).data = 1 ↔
      P.data = 0 ∨ Q.data = 0)

end algebra

/-! ## A small pairing

G1 = G2 = the integers modulo 5 under addition, GT = the same group written
multiplicatively, `map(P, Q) = g^(P·Q)`. -/

/-- The Structures of the small pairing; `rest` is a tag. -/
def toy_Zr : field_s Nat := { fixed_length_in_bytes := 1, rest := 0 }

/-- G1 of the small pairing. -/
def toy_G1 : field_s Nat := { fixed_length_in_bytes := 2, rest := 1 }

/-- G2 of the small pairing. -/
def toy_G2 : field_s Nat := { fixed_length_in_bytes := 2, rest := 2 }

/-- GT of the small pairing. -/
def toy_GT : field_s Nat := { fixed_length_in_bytes := 1, rest := 3 }

/-- The small pairing: order 5, `map` at address 1, the generic predicate at
address 2. -/
def toy_pairing : pairing_s Nat Unit :=
  { r := 5, Zr := toy_Zr, G1 := toy_G1, G2 := toy_G2, GT := toy_GT,
    phi := ⟨0⟩, map := ⟨1⟩, is_almost_coddh := ⟨2⟩, clear_func := ⟨3⟩,
    data := () }

/-- The map of the small pairing: `out` is set to `g^(in1·in2)`. -/
def toy_map (out : element_s Nat (Multiplicative (ZMod 5)))
    (in1 in2 : element_s Nat (ZMod 5)) (_p : pairing_s Nat Unit) :
    element_s Nat (Multiplicative (ZMod 5)) :=
  { out with data := Multiplicative.ofAdd (in1.data * in2.data) }

/-- An element of GT with some content, for the locals of the predicate. -/
def toy_local : element_s Nat (Multiplicative (ZMod 5)) :=
  { field := toy_Zr, data := Multiplicative.ofAdd 3 }

/-- The code of the small pairing: every address of a map holds `toy_map`,
every address of a predicate holds the generic predicate. -/
def toy_code :
    code_s Nat Unit (ZMod 5) (ZMod 5) (Multiplicative (ZMod 5)) :=
  { map := fun _ => toy_map,
    is_almost_coddh := fun _ =>
      generic_is_almost_coddh
        { map := fun _ => toy_map, is_almost_coddh := fun _ _ _ _ _ _ => 0 }
        toy_local toy_local }

/-- The element of G1 with value `n`. -/
def toy_P (n : ZMod 5) : element_s Nat (ZMod 5) := { field := toy_G1, data := n }

/-- The element of G2 with value `n`. -/
def toy_Q (n : ZMod 5) : element_s Nat (ZMod 5) := { field := toy_G2, data := n }

/-- A pairing whose G1 has an odd length and whose G2 has the length -1. -/
def odd_pairing : pairing_s Nat Unit :=
  { toy_pairing with
    G1 := { fixed_length_in_bytes := 3, rest := 1 },
    G2 := { fixed_length_in_bytes := -1, rest := 2 } }

/-! ## C arithmetic -/

theorem wrap_int_of_is_int {x : Int} (h : is_int x) : wrap_int x = x := by
  unfold is_int INT_MIN INT_MAX at h
  unfold wrap_int
  omega

theorem tdiv_two_bounds (L : Int) :
    (0 ≤ L → 2 * Int.tdiv L 2 ≤ L ∧ L < 2 * Int.tdiv L 2 + 2) ∧
    (L ≤ 0 → L ≤ 2 * Int.tdiv L 2 ∧ 2 * Int.tdiv L 2 - 2 < L) := by
  constructor
  · intro h
    rw [Int.tdiv_eq_ediv h (by decide)]
    omega
  · intro h
    have h2 : Int.tdiv L 2 = -(Int.tdiv (-L) 2) := by
      rw [Int.neg_tdiv, Int.neg_neg]
    rw [h2, Int.tdiv_eq_ediv (by omega) (by decide)]
    omega

theorem int_div_two {L : Int} (h : is_int L) : int_div L 2 = Int.tdiv L 2 := by
  unfold int_div
  apply wrap_int_of_is_int
  have hb := tdiv_two_bounds L
  unfold is_int INT_MIN INT_MAX at *
  omega

theorem int_div_two_add_one {L : Int} (h : is_int L) :
    int_add (int_div L 2) 1 = Int.tdiv L 2 + 1 := by
  rw [int_div_two h]
  unfold int_add
  apply wrap_int_of_is_int
  have hb := tdiv_two_bounds L
  unfold is_int INT_MIN INT_MAX at *
  omega

/-! ## The length queries -/

section lengths

variable {F X : Type}

/-- C5, as stated, fails: with a full length of 3 for G1 the x-only length is
1, and with a full length of -1 for G2 the x-only length is 0, so twice the
x-only length is not the full length. -/
theorem x_only_not_half_counterexample :
    is_int (pairing_length_in_bytes_G1 odd_pairing) ∧
    is_int (pairing_length_in_bytes_G2 odd_pairing) ∧
    pairing_length_in_bytes_G1 odd_pairing = 3 ∧
    pairing_length_in_bytes_x_only_G1 odd_pairing = 1 ∧
    2 * pairing_length_in_bytes_x_only_G1 odd_pairing
      ≠ pairing_length_in_bytes_G1 odd_pairing ∧
    pairing_length_in_bytes_G2 odd_pairing = -1 ∧
    pairing_length_in_bytes_x_only_G2 odd_pairing = 0 ∧
    2 * pairing_length_in_bytes_x_only_G2 odd_pairing
      ≠ pairing_length_in_bytes_G2 odd_pairing := by
  decide

/-- C5, amended: for G1 and for G2 the x-only length is the full length
halved with truncation toward zero; twice the x-only length is the full length
exactly when the full length is even, it is the full length less one when the
full length is odd and positive, and the full length plus one when it is odd
and negative. -/
theorem x_only_length_half_truncated (pairing : pairing_s F X)
    (h1 : is_int pairing.G1.fixed_length_in_bytes)
    (h2 : is_int pairing.G2.fixed_length_in_bytes) :
    (pairing_length_in_bytes_x_only_G1 pairing
        = Int.tdiv (pairing_length_in_bytes_G1 pairing) 2 ∧
      (2 * pairing_length_in_bytes_x_only_G1 pairing
          = pairing_length_in_bytes_G1 pairing ↔
        2 ∣ pairing_length_in_bytes_G1 pairing) ∧
      (¬ 2 ∣ pairing_length_in_bytes_G1 pairing →
        0 < pairing_length_in_bytes_G1 pairing →
        2 * pairing_length_in_bytes_x_only_G1 pairing
          = pairing_length_in_bytes_G1 pairing - 1) ∧
      (¬ 2 ∣ pairing_length_in_bytes_G1 pairing →
        pairing_length_in_bytes_G1 pairing < 0 →
        2 * pairing_length_in_bytes_x_only_G1 pairing
          = pairing_length_in_bytes_G1 pairing + 1)) ∧
    (pairing_length_in_bytes_x_only_G2 pairing
        = Int.tdiv (pairing_length_in_bytes_G2 pairing) 2 ∧
      (2 * pairing_length_in_bytes_x_only_G2 pairing
          = pairing_length_in_bytes_G2 pairing ↔
        2 ∣ pairing_length_in_bytes_G2 pairing) ∧
      (¬ 2 ∣ pairing_length_in_bytes_G2 pairing →
        0 < pairing_length_in_bytes_G2 pairing →
        2 * pairing_length_in_bytes_x_only_G2 pairing
          = pairing_length_in_bytes_G2 pairing - 1) ∧
      (¬ 2 ∣ pairing_length_in_bytes_G2 pairing →
        pairing_length_in_bytes_G2 pairing < 0 →
        2 * pairing_length_in_bytes_x_only_G2 pairing
          = pairing_length_in_bytes_G2 pairing + 1)) := by
  unfold pairing_length_in_bytes_x_only_G1 pairing_length_in_bytes_x_only_G2
    pairing_length_in_bytes_G1 pairing_length_in_bytes_G2
  rw [int_div_two h1, int_div_two h2]
  have b1 := tdiv_two_bounds pairing.G1.fixed_length_in_bytes
  have b2 := tdiv_two_bounds pairing.G2.fixed_length_in_bytes
  refine ⟨⟨rfl, ?_, ?_, ?_⟩, ⟨rfl, ?_, ?_, ?_⟩⟩ <;> omega

/-- Witness of C5 amended, at the pairing with lengths 3 and -1. -/
theorem x_only_length_half_truncated_witness :
    (is_int odd_pairing.G1.fixed_length_in_bytes ∧
      is_int odd_pairing.G2.fixed_length_in_bytes) ∧
    2 * pairing_length_in_bytes_x_only_G1 odd_pairing
      = pairing_length_in_bytes_G1 odd_pairing - 1 ∧
    2 * pairing_length_in_bytes_x_only_G2 odd_pairing
      = pairing_length_in_bytes_G2 odd_pairing + 1 :=
  ⟨⟨by decide, by decide⟩,
    (x_only_length_half_truncated odd_pairing (by decide) (by decide)).1.2.2.1
      (by decide) (by decide),
    (x_only_length_half_truncated odd_pairing (by decide) (by decide)).2.2.2.2
      (by decide) (by decide)⟩

/-- C6: for G1 and for G2 the compressed length is the full length divided by
two, truncated toward zero, plus one, which is the x-only length plus one. -/
theorem compressed_length_eq (pairing : pairing_s F X)
    (h1 : is_int pairing.G1.fixed_length_in_bytes)
    (h2 : is_int pairing.G2.fixed_length_in_bytes) :
    pairing_length_in_bytes_compressed_G1 pairing
      = Int.tdiv (pairing_length_in_bytes_G1 pairing) 2 + 1 ∧
    pairing_length_in_bytes_compressed_G1 pairing
      = pairing_length_in_bytes_x_only_G1 pairing + 1 ∧
    pairing_length_in_bytes_compressed_G2 pairing
      = Int.tdiv (pairing_length_in_bytes_G2 pairing) 2 + 1 ∧
    pairing_length_in_bytes_compressed_G2 pairing
      = pairing_length_in_bytes_x_only_G2 pairing + 1 := by
  unfold pairing_length_in_bytes_compressed_G1
    pairing_length_in_bytes_compressed_G2 pairing_length_in_bytes_x_only_G1
    pairing_length_in_bytes_x_only_G2 pairing_length_in_bytes_G1
    pairing_length_in_bytes_G2
  rw [int_div_two_add_one h1, int_div_two_add_one h2, int_div_two h1,
    int_div_two h2]
  exact ⟨rfl, rfl, rfl, rfl⟩

/-- Witness of C6, at the pairing with lengths 3 and -1: the compressed
lengths are 2 and 1. -/
theorem compressed_length_eq_witness :
    (is_int odd_pairing.G1.fixed_length_in_bytes ∧
      is_int odd_pairing.G2.fixed_length_in_bytes) ∧
    pairing_length_in_bytes_compressed_G1 odd_pairing
      = Int.tdiv (pairing_length_in_bytes_G1 odd_pairing) 2 + 1 ∧
    pairing_length_in_bytes_compressed_G1 odd_pairing
      = pairing_length_in_bytes_x_only_G1 odd_pairing + 1 ∧
    pairing_length_in_bytes_compressed_G2 odd_pairing
      = Int.tdiv (pairing_length_in_bytes_G2 odd_pairing) 2 + 1 ∧
    pairing_length_in_bytes_compressed_G2 odd_pairing
      = pairing_length_in_bytes_x_only_G2 odd_pairing + 1 :=
  ⟨⟨by decide, by decide⟩,
    compressed_length_eq odd_pairing (by decide) (by decide)⟩

/-- C8: each full-length query returns the `fixed_length_in_bytes` of its own
structure, and the result is the same after any change of the other members of
the pairing and of the other members of that structure. The queries only read
the pairing: it is their argument and no part of their result. -/
theorem full_length_reads_own_structure (pairing : pairing_s F X) :
    (pairing_length_in_bytes_G1 pairing = pairing.G1.fixed_length_in_bytes ∧
      pairing_length_in_bytes_G2 pairing = pairing.G2.fixed_length_in_bytes ∧
      pairing_length_in_bytes_GT pairing = pairing.GT.fixed_length_in_bytes ∧
      pairing_length_in_bytes_Zr pairing = pairing.Zr.fixed_length_in_bytes) ∧
    (∀ (r : Nat) (s1 s2 s3 : field_s F) (f1 f2 f3 f4 : fn_ptr) (x : X)
        (rest : F),
      pairing_length_in_bytes_G1
          { r := r, Zr := s1, G1 := { pairing.G1 with rest := rest },
            G2 := s2, GT := s3, phi := f1, map := f2, is_almost_coddh := f3,
            clear_func := f4, data := x }
        = pairing_length_in_bytes_G1 pairing ∧
      pairing_length_in_bytes_G2
          { r := r, Zr := s1, G1 := s2,
            G2 := { pairing.G2 with rest := rest }, GT := s3, phi := f1,
            map := f2, is_almost_coddh := f3, clear_func := f4, data := x }
        = pairing_length_in_bytes_G2 pairing ∧
      pairing_length_in_bytes_GT
          { r := r, Zr := s1, G1 := s2, G2 := s3,
            GT := { pairing.GT with rest := rest }, phi := f1, map := f2,
            is_almost_coddh := f3, clear_func := f4, data := x }
        = pairing_length_in_bytes_GT pairing ∧
      pairing_length_in_bytes_Zr
          { r := r, Zr := { pairing.Zr with rest := rest }, G1 := s1,
            G2 := s2, GT := s3, phi := f1, map := f2, is_almost_coddh := f3,
            clear_func := f4, data := x }
        = pairing_length_in_bytes_Zr pairing) :=
  ⟨⟨rfl, rfl, rfl, rfl⟩, fun _ _ _ _ _ _ _ _ _ _ => ⟨rfl, rfl, rfl, rfl⟩⟩

/-- C10: for G1 and for G2, with full length `L` any C `int`, the compressed
length is smaller than `L` exactly when `L ≥ 3`, at most `L` exactly when
`L ≥ 1`, larger than `L` when `L ≤ 0`; and neither `L / 2` nor `L / 2 + 1`
leaves the range of a 32-bit `int`, so the value computed is the exact one. -/
theorem compressed_length_vs_full (pairing : pairing_s F X)
    (h1 : is_int pairing.G1.fixed_length_in_bytes)
    (h2 : is_int pairing.G2.fixed_length_in_bytes) :
    ((pairing_length_in_bytes_compressed_G1 pairing
          < pairing_length_in_bytes_G1 pairing ↔
        3 ≤ pairing_length_in_bytes_G1 pairing) ∧
      (pairing_length_in_bytes_compressed_G1 pairing
          ≤ pairing_length_in_bytes_G1 pairing ↔
        1 ≤ pairing_length_in_bytes_G1 pairing) ∧
      (pairing_length_in_bytes_G1 pairing ≤ 0 →
        pairing_length_in_bytes_G1 pairing
          < pairing_length_in_bytes_compressed_G1 pairing) ∧
      is_int (Int.tdiv (pairing_length_in_bytes_G1 pairing) 2) ∧
      is_int (Int.tdiv (pairing_length_in_bytes_G1 pairing) 2 + 1) ∧
      pairing_length_in_bytes_compressed_G1 pairing
        = Int.tdiv (pairing_length_in_bytes_G1 pairing) 2 + 1) ∧
    ((pairing_length_in_bytes_compressed_G2 pairing
          < pairing_length_in_bytes_G2 pairing ↔
        3 ≤ pairing_length_in_bytes_G2 pairing) ∧
      (pairing_length_in_bytes_compressed_G2 pairing
          ≤ pairing_length_in_bytes_G2 pairing ↔
        1 ≤ pairing_length_in_bytes_G2 pairing) ∧
      (pairing_length_in_bytes_G2 pairing ≤ 0 →
        pairing_length_in_bytes_G2 pairing
          < pairing_length_in_bytes_compressed_G2 pairing) ∧
      is_int (Int.tdiv (pairing_length_in_bytes_G2 pairing) 2) ∧
      is_int (Int.tdiv (pairing_length_in_bytes_G2 pairing) 2 + 1) ∧
      pairing_length_in_bytes_compressed_G2 pairing
        = Int.tdiv (pairing_length_in_bytes_G2 pairing) 2 + 1) := by
  unfold pairing_length_in_bytes_compressed_G1
    pairing_length_in_bytes_compressed_G2 pairing_length_in_bytes_G1
    pairing_length_in_bytes_G2
  rw [int_div_two_add_one h1, int_div_two_add_one h2]
  have b1 := tdiv_two_bounds pairing.G1.fixed_length_in_bytes
  have b2 := tdiv_two_bounds pairing.G2.fixed_length_in_bytes
  unfold is_int INT_MIN INT_MAX at *
  refine ⟨⟨?_, ?_, ?_, ?_, ?_, rfl⟩, ⟨?_, ?_, ?_, ?_, ?_, rfl⟩⟩ <;> omega

/-- Witness of C10, at the pairing with lengths 3 and -1: 2 < 3 and
-1 < 1. -/
theorem compressed_length_vs_full_witness :
    (is_int odd_pairing.G1.fixed_length_in_bytes ∧
      is_int odd_pairing.G2.fixed_length_in_bytes) ∧
    pairing_length_in_bytes_compressed_G1 odd_pairing
      < pairing_length_in_bytes_G1 odd_pairing ∧
    pairing_length_in_bytes_G2 odd_pairing
      < pairing_length_in_bytes_compressed_G2 odd_pairing :=
  ⟨⟨by decide, by decide⟩,
    (compressed_length_vs_full odd_pairing (by decide) (by decide)).1.1.2
      (by decide),
    (compressed_length_vs_full odd_pairing (by decide) (by decide)).2.2.2.1
      (by decide)⟩

end lengths

/-! ## Dispatch through the pairing -/

section dispatch

variable {F X A1 A2 AT D : Type}

/-- C4: `pairing_apply(out, in1, in2, p)` sets `out` to what the map bound to
`p` gives on `out`, `in1` as first argument, `in2` as second argument and `p`
itself. -/
theorem pairing_apply_eq_bound_map (code : code_s F X A1 A2 AT)
    (out : element_s F AT) (in1 : element_s F A1) (in2 : element_s F A2)
    (pairing : pairing_s F X) :
    pairing_apply code out in1 in2 pairing
      = code.map pairing.map out in1 in2 pairing :=
  rfl

/-- C9: `bilinear_map` and `pairing_apply` give the same result on the same
arguments, both being the call of the map bound to the pairing. -/
theorem bilinear_map_eq_pairing_apply (code : code_s F X A1 A2 AT)
    (out : element_s F AT) (in1 : element_s F A1) (in2 : element_s F A2)
    (pairing : pairing_s F X) :
    bilinear_map code out in1 in2 pairing
        = pairing_apply code out in1 in2 pairing ∧
      bilinear_map code out in1 in2 pairing
        = code.map pairing.map out in1 in2 pairing ∧
      pairing_apply code out in1 in2 pairing
        = code.map pairing.map out in1 in2 pairing :=
  ⟨rfl, rfl, rfl⟩

/-- C7: each of `element_init_G1`, `element_init_G2`, `element_init_GT` and
`element_init_Zr` is `element_init` on the pairing's structure of the same
name, and the element it gives is bound to that structure and to no structure
different from it. The functions write the element and only read the pairing:
it is their argument and no part of their result. -/
theorem element_init_binds_own_structure (e : element_s F D)
    (pairing : pairing_s F X) :
    (element_init_G1 e pairing = element_init e pairing.G1 ∧
      element_init_G2 e pairing = element_init e pairing.G2 ∧
      element_init_GT e pairing = element_init e pairing.GT ∧
      element_init_Zr e pairing = element_init e pairing.Zr) ∧
    (∀ s : field_s F, (element_init_G1 e pairing).field = s ↔ s = pairing.G1) ∧
    (∀ s : field_s F, (element_init_G2 e pairing).field = s ↔ s = pairing.G2) ∧
    (∀ s : field_s F, (element_init_GT e pairing).field = s ↔ s = pairing.GT) ∧
    (∀ s : field_s F, (element_init_Zr e pairing).field = s ↔ s = pairing.Zr) :=
  ⟨⟨rfl, rfl, rfl, rfl⟩, fun _ => eq_comm, fun _ => eq_comm, fun _ => eq_comm,
    fun _ => eq_comm⟩

end dispatch

/-! ## Bilinearity and the co-CDH predicate -/

section generic_predicate

variable {F X A1 A2 AT : Type} [Group AT]

theorem generic_is_almost_coddh_eq_one_iff [DecidableEq AT]
    (code : code_s F X A1 A2 AT) (t0 t1 : element_s F AT)
    (a b : element_s F A1) (c d : element_s F A2) (pairing : pairing_s F X) :
    generic_is_almost_coddh code t0 t1 a b c d pairing = 1 ↔
      ((code.map pairing.map (element_init t0 pairing.GT) a d pairing).data
          = (code.map pairing.map (element_init t1 pairing.GT) b c
              pairing).data ∨
        (code.map pairing.map (element_init t0 pairing.GT) a d pairing).data
          = ((code.map pairing.map (element_init t1 pairing.GT) b c
              pairing).data)⁻¹) := by
  unfold generic_is_almost_coddh bilinear_map
  simp only
  split_ifs with h1 h2
  · simp [h1]
  · simp [h2]
  · simp [h1, h2]

theorem generic_is_almost_coddh_one_or_zero [DecidableEq AT]
    (code : code_s F X A1 A2 AT) (t0 t1 : element_s F AT)
    (a b : element_s F A1) (c d : element_s F A2) (pairing : pairing_s F X) :
    generic_is_almost_coddh code t0 t1 a b c d pairing = 1 ∨
      generic_is_almost_coddh code t0 t1 a b c d pairing = 0 := by
  unfold generic_is_almost_coddh
  simp only
  split_ifs <;> simp

end generic_predicate

section pairing_algebra

variable {F X A1 A2 AT : Type}
variable [AddCommGroup A1] [AddCommGroup A2] [CommGroup AT]
variable [Fintype A1] [Fintype A2] [Fintype AT]

theorem element_scalar_mul_mod {A : Type} [AddGroup A] [Fintype A] {r : Nat}
    (h : Fintype.card A = r) (x : Int) (P : element_s F A) :
    element_scalar_mul (x % (r : Int)) P = element_scalar_mul x P := by
  unfold element_scalar_mul
  rw [← h, mod_card_zsmul]

theorem element_scalar_mul_one {A : Type} [AddGroup A] (P : element_s F A) :
    element_scalar_mul 1 P = P := by
  unfold element_scalar_mul
  rw [one_zsmul]

theorem element_neg_scalar_mul {A : Type} [AddGroup A] (x : Int)
    (P : element_s F A) :
    element_neg (element_scalar_mul x P) = element_scalar_mul (-x) P := by
  unfold element_neg element_scalar_mul
  simp

theorem card_pos_of_invariant {code : code_s F X A1 A2 AT}
    {pairing : pairing_s F X} (h : pairing_invariant code pairing) :
    (0 : Int) < pairing.r := by
  have : 0 < Fintype.card AT := Fintype.card_pos
  rw [h.2.2.1] at this
  exact_mod_cast this

/-- Bilinearity for all integer scalars, from bilinearity for the scalars of
Zr and the common order of the groups. -/
theorem map_bilinear_all {code : code_s F X A1 A2 AT}
    {pairing : pairing_s F X} (h : pairing_invariant code pairing)
    (out out2 : element_s F AT) (P : element_s F A1) (Q : element_s F A2)
    (a b : Int) (hout : out.field = pairing.GT)
    (hout2 : out2.field = pairing.GT) (hP : P.field = pairing.G1)
    (hQ : Q.field = pairing.G2) :
    (code.map pairing.map out (element_scalar_mul a P)
        (element_scalar_mul b Q) pairing).data
      = (code.map pairing.map out2 P Q pairing).data ^ (a * b) := by
  have hr := card_pos_of_invariant h
  obtain ⟨h1, h2, hT, hbil⟩ := h
  rw [← element_scalar_mul_mod h1 a P, ← element_scalar_mul_mod h2 b Q,
    hbil out out2 P Q _ _ hout hout2 hP hQ
      (Int.emod_nonneg _ (ne_of_gt hr)) (Int.emod_lt_of_pos _ hr)
      (Int.emod_nonneg _ (ne_of_gt hr)) (Int.emod_lt_of_pos _ hr),
    ← zpow_mod_card _ (a * b), ← zpow_mod_card _ (a % _ * (b % _)), hT,
    ← Int.mul_emod]

theorem element_eq_of_field_data {A : Type} {a b : element_s F A}
    (hf : a.field = b.field) (hd : a.data = b.data) : a = b := by
  cases a
  cases b
  simp_all

/-- The generic predicate accepts `(g, x·g, h, x·h)` and `(g, x·g, h, -x·h)`
when the map is bilinear. -/
theorem generic_accepts_multiples [DecidableEq AT]
    {code : code_s F X A1 A2 AT} {pairing : pairing_s F X}
    (hinv : pairing_invariant code pairing) (t0 t1 : element_s F AT)
    (g : element_s F A1) (h : element_s F A2) (x : Int)
    (hg : g.field = pairing.G1) (hh : h.field = pairing.G2) :
    generic_is_almost_coddh code t0 t1 g (element_scalar_mul x g) h
        (element_scalar_mul x h) pairing = 1 ∧
      generic_is_almost_coddh code t0 t1 g (element_scalar_mul x g) h
        (element_neg (element_scalar_mul x h)) pairing = 1 := by
  have e1 := map_bilinear_all hinv (element_init t0 pairing.GT)
    (element_init t0 pairing.GT) g h 1 x rfl rfl hg hh
  have e2 := map_bilinear_all hinv (element_init t1 pairing.GT)
    (element_init t0 pairing.GT) g h x 1 rfl rfl hg hh
  have e3 := map_bilinear_all hinv (element_init t0 pairing.GT)
    (element_init t0 pairing.GT) g h 1 (-x) rfl rfl hg hh
  rw [element_scalar_mul_one] at e1 e2 e3
  rw [one_mul] at e1 e3
  rw [mul_one] at e2
  constructor
  · rw [generic_is_almost_coddh_eq_one_iff, e1, e2]
    exact Or.inl rfl
  · rw [generic_is_almost_coddh_eq_one_iff, element_neg_scalar_mul, e3, e2,
      zpow_neg]
    exact Or.inr rfl

/-- In a group of prime order, every element is a multiple of any element
other than the identity. -/
theorem exists_scalar_of_prime_card {A : Type} [AddCommGroup A] [Fintype A]
    {r : Nat} (hr : r.Prime) (hcard : Fintype.card A = r) {P : A} (hP : P ≠ 0)
    (P2 : A) : ∃ v : Int, P2 = v • P := by
  haveI : Fact r.Prime := ⟨hr⟩
  have hc : Nat.card A = r := by rw [Nat.card_eq_fintype_card, hcard]
  have hmem : P2 ∈ AddSubgroup.zmultiples P := mem_zmultiples_of_prime_card hc hP
  obtain ⟨k, hk⟩ := AddSubgroup.mem_zmultiples_iff.mp hmem
  exact ⟨k, hk.symm⟩

/-- In a group of prime order `r`, two powers of an element other than the
identity are equal only when the exponents are congruent modulo `r`. -/
theorem exponent_modEq_of_prime_card {A : Type} [CommGroup A] [Fintype A]
    {r : Nat} (hr : r.Prime) (hcard : Fintype.card A = r) {e : A} (he : e ≠ 1)
    {m n : Int} (h : e ^ m = e ^ n) : m % (r : Int) = n % (r : Int) := by
  haveI : Fact r.Prime := ⟨hr⟩
  have hord : orderOf e = r :=
    orderOf_eq_prime (by rw [← hcard]; exact pow_card_eq_one) he
  have := zpow_eq_zpow_iff_modEq.mp h
  rw [hord] at this
  exact this

theorem zsmul_eq_of_mod_eq {A : Type} [AddCommGroup A] [Fintype A] {r : Nat}
    (hcard : Fintype.card A = r) {m n : Int}
    (h : m % (r : Int) = n % (r : Int)) (c : A) : m • c = n • c := by
  rw [← mod_card_zsmul c m, ← mod_card_zsmul c n, hcard, h]

/-- C2: for a pairing with a bilinear map whose bound predicate is the
generic one, for every `g` in G1, `h` in G2 and every integer `x`,
`is_almost_coddh(g, x·g, h, x·h)` and `is_almost_coddh(g, x·g, h, -x·h)`
return 1. -/
theorem is_almost_coddh_accepts [DecidableEq AT] (code : code_s F X A1 A2 AT)
    (pairing : pairing_s F X) (t0 t1 : element_s F AT)
    (hinv : pairing_invariant code pairing)
    (hgen : code.is_almost_coddh pairing.is_almost_coddh
      = generic_is_almost_coddh code t0 t1)
    (g : element_s F A1) (h : element_s F A2) (x : Int)
    (hg : g.field = pairing.G1) (hh : h.field = pairing.G2) :
    is_almost_coddh code g (element_scalar_mul x g) h (element_scalar_mul x h)
        pairing = 1 ∧
      is_almost_coddh code g (element_scalar_mul x g) h
        (element_neg (element_scalar_mul x h)) pairing = 1 := by
  unfold is_almost_coddh
  rw [hgen]
  exact generic_accepts_multiples hinv t0 t1 g h x hg hh

/-- Where `a` and `c` are not both the identity, the generic predicate
decides the relation: for a pairing with a bilinear, non-degenerate map on
groups of prime order `r` whose bound predicate is the generic one, and `a`,
`b` in G1, `c`, `d` in G2, `is_almost_coddh(a, b, c, d)` returns 1 or 0, and
it returns 1 if and only if there is a scalar `x` with `b = x·a` and
(`d = x·c` or `d = -x·c`). -/
theorem is_almost_coddh_iff_of_not_both_identity [DecidableEq AT]
    (code : code_s F X A1 A2 AT)
    (pairing : pairing_s F X) (t0 t1 : element_s F AT)
    (hinv : pairing_invariant code pairing) (hprime : pairing.r.Prime)
    (hnd : map_non_degenerate code pairing)
    (hgen : code.is_almost_coddh pairing.is_almost_coddh
      = generic_is_almost_coddh code t0 t1)
    (a b : element_s F A1) (c d : element_s F A2)
    (ha : a.field = pairing.G1) (hb : b.field = pairing.G1)
    (hc : c.field = pairing.G2) (hd : d.field = pairing.G2)
    (hne : ¬ (a.data = 0 ∧ c.data = 0)) :
    (is_almost_coddh code a b c d pairing = 1 ∨
      is_almost_coddh code a b c d pairing = 0) ∧
    (is_almost_coddh code a b c d pairing = 1 ↔
      ∃ x : Int, b = element_scalar_mul x a ∧
        (d = element_scalar_mul x c ∨
          d = element_neg (element_scalar_mul x c))) := by
  unfold is_almost_coddh
  rw [hgen]
  have i0 : (element_init t0 pairing.GT).field = pairing.GT := rfl
  have i1 : (element_init t1 pairing.GT).field = pairing.GT := rfl
  refine ⟨generic_is_almost_coddh_one_or_zero code t0 t1 a b c d pairing,
    ?_⟩
  · constructor
    · intro h1
      rw [generic_is_almost_coddh_eq_one_iff] at h1
      by_cases ha0 : a.data = 0
      · -- `a` is the identity, `c` is not: `map(a, d) = 1`, so `b` is the identity
        have hc0 : c.data ≠ 0 := fun hc0 => hne ⟨ha0, hc0⟩
        have ead := (hnd (element_init t0 pairing.GT) a d i0 ha hd).mpr
          (Or.inl ha0)
        rw [ead] at h1
        have ebc : (code.map pairing.map (element_init t1 pairing.GT) b c
            pairing).data = 1 := by
          rcases h1 with h1 | h1
          · exact h1.symm
          · exact inv_eq_one.mp h1.symm
        have hb0 : b.data = 0 := by
          rcases (hnd (element_init t1 pairing.GT) b c i1 hb hc).mp ebc with
            h | h
          · exact h
          · exact absurd h hc0
        obtain ⟨t, ht⟩ := exists_scalar_of_prime_card hprime hinv.2.1 hc0 d.data
        refine ⟨t, ?_, Or.inl ?_⟩
        · apply element_eq_of_field_data
          · rw [hb]; exact ha.symm
          · show b.data = t • a.data
            rw [hb0, ha0, smul_zero]
        · apply element_eq_of_field_data
          · rw [hd]; exact hc.symm
          · exact ht
      · obtain ⟨v, hv⟩ := exists_scalar_of_prime_card hprime hinv.1 ha0 b.data
        have hbv : b = element_scalar_mul v a := by
          apply element_eq_of_field_data
          · rw [hb]; exact ha.symm
          · exact hv
        by_cases hc0 : c.data = 0
        · -- `c` is the identity: `map(b, c) = 1`, so `d` is the identity
          have ebc := (hnd (element_init t1 pairing.GT) b c i1 hb hc).mpr
            (Or.inr hc0)
          rw [ebc, inv_one, or_self] at h1
          have hd0 : d.data = 0 := by
            rcases (hnd (element_init t0 pairing.GT) a d i0 ha hd).mp h1 with
              h | h
            · exact absurd h ha0
            · exact h
          refine ⟨v, hbv, Or.inl ?_⟩
          apply element_eq_of_field_data
          · rw [hd]; exact hc.symm
          · show d.data = v • c.data
            rw [hd0, hc0, smul_zero]
        · -- neither is the identity: compare the exponents of `map(a, c)`
          obtain ⟨t, ht⟩ :=
            exists_scalar_of_prime_card hprime hinv.2.1 hc0 d.data
          have hdt : d = element_scalar_mul t c := by
            apply element_eq_of_field_data
            · rw [hd]; exact hc.symm
            · exact ht
          have e1 := map_bilinear_all hinv (element_init t0 pairing.GT)
            (element_init t0 pairing.GT) a c 1 t i0 i0 ha hc
          have e2 := map_bilinear_all hinv (element_init t1 pairing.GT)
            (element_init t0 pairing.GT) a c v 1 i1 i0 ha hc
          rw [element_scalar_mul_one, ← hdt, one_mul] at e1
          rw [element_scalar_mul_one, ← hbv, mul_one] at e2
          have hE : (code.map pairing.map (element_init t0 pairing.GT) a c
              pairing).data ≠ 1 := by
            intro h
            rcases (hnd (element_init t0 pairing.GT) a c i0 ha hc).mp h with
              h | h
            · exact ha0 h
            · exact hc0 h
          rw [e1, e2, ← zpow_neg] at h1
          rcases h1 with h1 | h1
          · have hm := exponent_modEq_of_prime_card hprime hinv.2.2.1 hE h1
            refine ⟨v, hbv, Or.inl ?_⟩
            apply element_eq_of_field_data
            · rw [hd]; exact hc.symm
            · show d.data = v • c.data
              rw [ht]
              exact zsmul_eq_of_mod_eq hinv.2.1 hm c.data
          · have hm := exponent_modEq_of_prime_card hprime hinv.2.2.1 hE h1
            refine ⟨v, hbv, Or.inr ?_⟩
            rw [element_neg_scalar_mul]
            apply element_eq_of_field_data
            · rw [hd]; exact hc.symm
            · show d.data = (-v) • c.data
              rw [ht]
              exact zsmul_eq_of_mod_eq hinv.2.1 hm c.data
    · rintro ⟨x, hbx, hdx | hdx⟩
      · rw [hbx, hdx]
        exact (generic_accepts_multiples hinv t0 t1 a c x ha hc).1
      · rw [hbx, hdx]
        exact (generic_accepts_multiples hinv t0 t1 a c x ha hc).2

end pairing_algebra

section identity_pair

variable {F X A1 A2 AT : Type}
variable [AddCommGroup A1] [AddCommGroup A2] [CommGroup AT]

/-- Where `a` and `c` are both the identity, the generic predicate compares
two values of the map that are both the identity of GT: for every
non-degenerate map it returns 1, whatever `b` and `d` are, and when `b` is
not the identity no scalar `x` gives `b = x·a`. -/
theorem generic_accepts_identity_pair [DecidableEq AT]
    (code : code_s F X A1 A2 AT) (pairing : pairing_s F X)
    (t0 t1 : element_s F AT) (hnd : map_non_degenerate code pairing)
    (hgen : code.is_almost_coddh pairing.is_almost_coddh
      = generic_is_almost_coddh code t0 t1)
    (a b : element_s F A1) (c d : element_s F A2)
    (ha : a.field = pairing.G1) (hb : b.field = pairing.G1)
    (hc : c.field = pairing.G2) (hd : d.field = pairing.G2)
    (ha0 : a.data = 0) (hc0 : c.data = 0) :
    is_almost_coddh code a b c d pairing = 1 ∧
    (b.data ≠ 0 → ¬ ∃ x : Int, b = element_scalar_mul x a) := by
  constructor
  · unfold is_almost_coddh
    rw [hgen, generic_is_almost_coddh_eq_one_iff]
    left
    rw [(hnd (element_init t0 pairing.GT) a d rfl ha hd).mpr (Or.inl ha0),
      (hnd (element_init t1 pairing.GT) b c rfl hb hc).mpr (Or.inr hc0)]
  · rintro hb0 ⟨x, hx⟩
    apply hb0
    have h := congrArg element_s.data hx
    have h2 : b.data = x • a.data := h
    rw [h2, ha0, smul_zero]

end identity_pair

/-! ## The small pairing satisfies the hypotheses -/

theorem toy_invariant : pairing_invariant toy_code toy_pairing := by
  refine ⟨?_, ?_, ?_, ?_⟩
  · exact ZMod.card 5
  · exact ZMod.card 5
  · show Fintype.card (Multiplicative (ZMod 5)) = 5
    rw [Fintype.card_multiplicative]
    exact ZMod.card 5
  · intro out out2 P Q a b _ _ _ _ _ _ _ _
    show Multiplicative.ofAdd ((a • P.data) * (b • Q.data))
      = Multiplicative.ofAdd (P.data * Q.data) ^ (a * b)
    rw [← ofAdd_zsmul, smul_mul_smul_comm]

/-- Witness of C2, on the small pairing, with `x = 3`. -/
theorem is_almost_coddh_accepts_witness :
    (pairing_invariant toy_code toy_pairing ∧
      toy_code.is_almost_coddh toy_pairing.is_almost_coddh
        = generic_is_almost_coddh toy_code toy_local toy_local) ∧
    is_almost_coddh toy_code (toy_P 1) (element_scalar_mul 3 (toy_P 1))
        (toy_Q 1) (element_scalar_mul 3 (toy_Q 1)) toy_pairing = 1 ∧
      is_almost_coddh toy_code (toy_P 1) (element_scalar_mul 3 (toy_P 1))
        (toy_Q 1) (element_neg (element_scalar_mul 3 (toy_Q 1)))
        toy_pairing = 1 :=
  ⟨⟨toy_invariant, rfl⟩,
    is_almost_coddh_accepts toy_code toy_pairing toy_local toy_local
      toy_invariant rfl (toy_P 1) (toy_Q 1) 3 rfl rfl⟩

end PBC
